import Mathlib

set_option autoImplicit false

/-!
Shallow embedding of the RabbitMQ message-broker client of the
gohexaclean repository (package rabbitmq: RabbitMQBroker and its
operations Connect, Close, Health, Publish, PublishBatch, Subscribe,
Unsubscribe, processMessages, monitorConnection, handleDisconnect,
resubscribeAll) together with the domain event model (package domain:
BaseEvent, UserCreatedEvent, UserUpdatedEvent, UserDeletedEvent,
UserLoggedInEvent) and their JSON wire encoding.

Modelling conventions:
- Go maps are association lists with distinct keys; map lookup, insert
  and delete are mapLookup, mapInsert and mapErase below.
- Handler function values (broker.MessageHandler) are opaque
  capabilities, identified by a Nat token; the boolean outcome of
  invoking a handler on a message body is supplied by an oracle.
- context.CancelFunc values are identified by Nat tokens drawn from a
  fresh-token counter in the state.
- Network operations (amqp dial, channel open, QoS, exchange declare,
  queue declare, queue bind, consume, publish) succeed or fail
  according to oracle records passed to each operation.
- The done channel is a doneClosed flag; Go panics on closing an
  already closed channel, which Close models with an explicit outcome.
- time.Duration values are Nat nanoseconds.
-/

namespace GoHexaClean

deriving instance DecidableEq for Except

/-- Association-list lookup, modelling Go map indexing `m[k]`. -/
def mapLookup {α : Type} : List (String × α) → String → Option α
  | [], _ => none
  | (k, v) :: rest, t => if k = t then some v else mapLookup rest t

/-- Association-list insert of an absent key, modelling `m[k] = v`
(the broker only inserts after a lookup found the key absent). -/
def mapInsert {α : Type} (l : List (String × α)) (k : String) (v : α) :
    List (String × α) :=
  l ++ [(k, v)]

/-- Association-list removal, modelling Go `delete(m, k)`. -/
def mapErase {α : Type} : List (String × α) → String → List (String × α)
  | [], _ => []
  | (k, v) :: rest, t =>
    if k = t then mapErase rest t else (k, v) :: mapErase rest t

/-- The keys of an association list are pairwise distinct, the
invariant every Go map satisfies by construction. -/
def distinctKeys {α : Type} (l : List (String × α)) : Prop :=
  (l.map Prod.fst).Nodup

/-- The fields of config.RabbitMQConfig that the broker code reads
(Exchange, ExchangeType, QueuePrefix is queuePref here, PrefetchCount,
Persistent, MaxReconnect, ReconnectDelay, ConnectionName). -/
structure RabbitMQConfig where
  exchange : String
  exchangeType : String
  queuePref : String
  prefetchCount : Nat
  persistent : Bool
  maxReconnect : Nat
  reconnectDelay : Nat
  connectionName : String
  deriving DecidableEq, Repr

/-- The error cases the broker produces with fmt.Errorf, one
constructor per distinct message in the source. -/
inductive BrokerError where
  | dialFailed
  | channelFailed
  | qosFailed
  | exchangeDeclareFailed
  | notConnected
  | serializationFailed
  | publishFailed
  | alreadySubscribed (topic : String)
  | notSubscribed (topic : String)
  | queueDeclareFailed
  | queueBindFailed
  | consumeFailed
  | notHealthy
  deriving DecidableEq, Repr

/-- The subscription record stored per topic: queue name, handler
capability and the CancelFunc token of the consumer-loop context. -/
structure Subscription where
  queue : String
  handler : Nat
  cancel : Nat
  deriving DecidableEq, Repr

/-- The mutable state of a RabbitMQBroker value: the connected and
reconnecting flags, the subscriptions map, whether the done channel
has been closed, whether conn is non-nil and whether it is closed.
nextCancel supplies fresh CancelFunc tokens; consumerLoops logs every
started processMessages goroutine (topic, cancel token); cancelled
logs every CancelFunc that has been invoked. -/
structure BrokerState where
  config : RabbitMQConfig
  connected : Bool
  reconnecting : Bool
  subscriptions : List (String × Subscription)
  doneClosed : Bool
  hasConn : Bool
  connClosed : Bool
  nextCancel : Nat
  consumerLoops : List (String × Nat)
  cancelled : List Nat
  deriving DecidableEq, Repr

/-- NewRabbitMQBroker: empty subscriptions map, open done channel, no
connection yet. -/
def NewRabbitMQBroker (cfg : RabbitMQConfig) : BrokerState :=
  { config := cfg
    connected := false
    reconnecting := false
    subscriptions := []
    doneClosed := false
    hasConn := false
    connClosed := false
    nextCancel := 0
    consumerLoops := []
    cancelled := [] }

/-- Success or failure of each network step Connect performs:
amqp.DialConfig, conn.Channel, ch.Qos, ch.ExchangeDeclare. -/
structure ConnectOracle where
  dialOk : Bool
  channelOk : Bool
  qosOk : Bool
  exchangeOk : Bool
  deriving DecidableEq, Repr

/-- Whether a Connect attempt from a disconnected state succeeds: the
exchange step only runs when config.Exchange is nonempty. -/
def ConnectOracle.succeeds (cfg : RabbitMQConfig) (o : ConnectOracle) : Bool :=
  o.dialOk && o.channelOk && o.qosOk && (cfg.exchange == "" || o.exchangeOk)

/-- RabbitMQBroker.Connect: returns nil immediately when already
connected; otherwise dials, opens a channel, sets QoS and (when the
configured exchange is nonempty) declares the exchange, releasing
partial resources and returning an error if any step fails; on
success sets the connection and the connected flag (and spawns
monitorConnection). -/
def Connect (s : BrokerState) (o : ConnectOracle) :
    Except BrokerError Unit × BrokerState :=
  if s.connected then (.ok (), s)
  else if !o.dialOk then (.error .dialFailed, s)
  else if !o.channelOk then (.error .channelFailed, s)
  else if !o.qosOk then (.error .qosFailed, s)
  else if !(s.config.exchange == "") && !o.exchangeOk then
    (.error .exchangeDeclareFailed, s)
  else
    (.ok (), { s with connected := true, hasConn := true, connClosed := false })

/-- The outcome of RabbitMQBroker.Close: Go panics when close(r.done)
is executed on an already closed channel; otherwise Close returns its
error value (always nil in the source) and the updated state. -/
inductive CloseOutcome where
  | panicked
  | normal (err : Option BrokerError) (s : BrokerState)
  deriving DecidableEq, Repr

/-- RabbitMQBroker.Close: returns nil immediately when not connected;
otherwise executes close(r.done) — a panic if done is already closed
— clears the connected flag and closes channel and connection. -/
def Close (s : BrokerState) : CloseOutcome :=
  if !s.connected then .normal none s
  else if s.doneClosed then .panicked
  else
    .normal none
      { s with doneClosed := true, connected := false, connClosed := true }

/-- RabbitMQBroker.Health: an error when the connected flag is false,
conn is nil, or conn reports closed. -/
def Health (s : BrokerState) : Except BrokerError Unit :=
  if !s.connected || !s.hasConn || s.connClosed then .error .notHealthy
  else .ok ()

/-- Success or failure of json.Marshal on the event and of
channel.PublishWithContext. -/
structure PublishOracle where
  marshalOk : Bool
  sendOk : Bool
  deriving DecidableEq, Repr

/-- Observable effects of one Publish call: whether json.Marshal was
invoked and how many network writes were attempted. -/
structure PublishEffects where
  marshalCalled : Bool
  networkWrites : Nat
  deriving DecidableEq, Repr

/-- RabbitMQBroker.Publish: fails with the not-connected error before
serializing when the connected flag is false; then serializes the
event, failing without a network write when json.Marshal errors; then
performs the single network write, propagating its failure. The
broker state itself is not changed (Publish only takes the read
lock). -/
def Publish (s : BrokerState) (o : PublishOracle) :
    Except BrokerError Unit × PublishEffects :=
  if !s.connected then (.error .notConnected, ⟨false, 0⟩)
  else if !o.marshalOk then (.error .serializationFailed, ⟨true, 0⟩)
  else if !o.sendOk then (.error .publishFailed, ⟨true, 1⟩)
  else (.ok (), ⟨true, 1⟩)

/-- RabbitMQBroker.PublishBatch: publishes the events in list order,
returning at the first Publish failure. Events are identified by Nat
ids; the oracle gives each event its Publish outcome; the second
component collects the ids of the successfully published events in
order. -/
def PublishBatch (s : BrokerState) (events : List Nat)
    (o : Nat → PublishOracle) : Except BrokerError Unit × List Nat :=
  match events with
  | [] => (.ok (), [])
  | e :: rest =>
    match (Publish s (o e)).1 with
    | .error err => (.error err, [])
    | .ok () =>
      let pr := PublishBatch s rest o
      (pr.1, e :: pr.2)

/-- Success or failure of the broker-side steps of Subscribe:
channel.QueueDeclare, channel.QueueBind, channel.Consume. -/
structure SubscribeOracle where
  declareOk : Bool
  bindOk : Bool
  consumeOk : Bool
  deriving DecidableEq, Repr

/-- All broker-side Subscribe steps succeed. -/
def SubscribeOracle.allOk (o : SubscribeOracle) : Bool :=
  o.declareOk && o.bindOk && o.consumeOk

/-- The queue name Subscribe derives: QueuePrefix + topic, which the
source resets to the bare topic when the prefix is empty. -/
def queueNameFor (cfg : RabbitMQConfig) (topic : String) : String :=
  if cfg.queuePref = "" then topic else cfg.queuePref ++ topic

/-- RabbitMQBroker.Subscribe: under the lock, fails when not
connected, then when the topic is already present; then declares the
queue, binds it and starts consuming, returning the failing step's
error with nothing recorded; on success stores the subscription with
a fresh CancelFunc token and starts one processMessages goroutine. -/
def Subscribe (s : BrokerState) (topic : String) (handler : Nat)
    (o : SubscribeOracle) : Except BrokerError Unit × BrokerState :=
  if !s.connected then (.error .notConnected, s)
  else if (mapLookup s.subscriptions topic).isSome then
    (.error (.alreadySubscribed topic), s)
  else if !o.declareOk then (.error .queueDeclareFailed, s)
  else if !o.bindOk then (.error .queueBindFailed, s)
  else if !o.consumeOk then (.error .consumeFailed, s)
  else
    (.ok (),
      { s with
        subscriptions :=
          mapInsert s.subscriptions topic
            ⟨queueNameFor s.config topic, handler, s.nextCancel⟩
        nextCancel := s.nextCancel + 1
        consumerLoops := s.consumerLoops ++ [(topic, s.nextCancel)] })

/-- The error a failing broker-side Subscribe step produces, in the
order the source checks the steps. -/
def subscribeStepError (o : SubscribeOracle) : BrokerError :=
  if !o.declareOk then .queueDeclareFailed
  else if !o.bindOk then .queueBindFailed
  else .consumeFailed

/-- RabbitMQBroker.Unsubscribe: under the lock, fails when the topic
is absent; otherwise invokes the subscription's CancelFunc and
removes the entry. -/
def Unsubscribe (s : BrokerState) (topic : String) :
    Except BrokerError Unit × BrokerState :=
  match mapLookup s.subscriptions topic with
  | none => (.error (.notSubscribed topic), s)
  | some sub =>
    (.ok (),
      { s with
        subscriptions := mapErase s.subscriptions topic
        cancelled := s.cancelled ++ [sub.cancel] })

/-- An acknowledgment action on a delivery: msg.Ack(multiple) or
msg.Nack(multiple, requeue). -/
inductive AckAction where
  | ack (multiple : Bool)
  | nack (multiple requeue : Bool)
  deriving DecidableEq, Repr

/-- What one iteration of the consumer loop did with a delivery:
which handler (if any) was invoked on which body, and the
acknowledgment sent. -/
structure DeliveryOutcome where
  handlerCalled : Option (Nat × List Nat)
  action : AckAction
  deriving DecidableEq, Repr

/-- The body of RabbitMQBroker.processMessages for one received
delivery: look up the topic under the read lock; when it is no longer
registered, Nack(false, true) without invoking any handler; otherwise
invoke the registered handler on the body, Ack(false) on success and
Nack(false, true) on error. hres gives each handler invocation's
outcome (true = nil error). -/
def processMessages (s : BrokerState) (topic : String) (body : List Nat)
    (hres : Nat → List Nat → Bool) : DeliveryOutcome :=
  match mapLookup s.subscriptions topic with
  | none => ⟨none, .nack false true⟩
  | some sub =>
    if hres sub.handler body then ⟨some (sub.handler, body), .ack false⟩
    else ⟨some (sub.handler, body), .nack false true⟩

/-- RabbitMQBroker.resubscribeAll, inner loop: re-invoke Subscribe for
each snapshot (topic, handler) pair in order, discarding results. -/
def resubLoop (subo : String → SubscribeOracle) :
    List (String × Nat) → BrokerState → BrokerState
  | [], st => st
  | (t, h) :: rest, st => resubLoop subo rest (Subscribe st t h (subo t)).2

/-- RabbitMQBroker.resubscribeAll: snapshot the registry as
(topic, handler) pairs under the read lock, clear the registry under
the lock, then re-invoke Subscribe for every snapshot entry. -/
def resubscribeAll (s : BrokerState) (subo : String → SubscribeOracle) :
    BrokerState :=
  let snapshot := s.subscriptions.map (fun p => (p.1, p.2.handler))
  resubLoop subo snapshot { s with subscriptions := [] }

/-- The default-corrected maximum reconnect attempt count:
config.MaxReconnect, or 10 when it is zero. -/
def effectiveMaxAttempts (cfg : RabbitMQConfig) : Nat :=
  if cfg.maxReconnect = 0 then 10 else cfg.maxReconnect

/-- The default-corrected reconnect delay: config.ReconnectDelay, or
5 seconds (in nanoseconds) when it is zero. -/
def effectiveDelay (cfg : RabbitMQConfig) : Nat :=
  if cfg.reconnectDelay = 0 then 5000000000 else cfg.reconnectDelay

/-- One observable event of the reconnection retry loop: a
time.After sleep of the given nanoseconds, or a Connect attempt with
its success. -/
inductive RetryEvent where
  | sleep (ns : Nat)
  | attempt (success : Bool)
  deriving DecidableEq, Repr

/-- Whether a retry event is a Connect attempt. -/
def RetryEvent.isAttempt : RetryEvent → Bool
  | .attempt _ => true
  | .sleep _ => false

/-- The retry loop of RabbitMQBroker.handleDisconnect: while attempts
remain, select on the done channel (returning at once, with the
reconnecting flag left set, when it is closed) and on the delay
timer; after each sleep call Connect; on success clear the
reconnecting flag, run resubscribeAll and return; on failure count
the attempt; when the budget is exhausted clear the reconnecting
flag. Returns the final state and the trace of sleeps and attempts. -/
def retryLoop (delay : Nat) (outcome : Nat → ConnectOracle)
    (subo : String → SubscribeOracle) :
    Nat → Nat → BrokerState → BrokerState × List RetryEvent
  | 0, _, s => ({ s with reconnecting := false }, [])
  | r + 1, att, s =>
    if s.doneClosed then (s, [])
    else
      match Connect s (outcome att) with
      | (.ok _, s1) =>
        (resubscribeAll { s1 with reconnecting := false } subo,
          [.sleep delay, .attempt true])
      | (.error _, s1) =>
        let next := retryLoop delay outcome subo r (att + 1) s1
        (next.1, .sleep delay :: .attempt false :: next.2)

/-- RabbitMQBroker.handleDisconnect: returns at once when already
reconnecting; otherwise sets the reconnecting flag, clears the
connected flag, and runs the retry loop with the default-corrected
attempt budget and delay. -/
def handleDisconnect (s : BrokerState) (outcome : Nat → ConnectOracle)
    (subo : String → SubscribeOracle) : BrokerState × List RetryEvent :=
  if s.reconnecting then (s, [])
  else
    retryLoop (effectiveDelay s.config) outcome subo
      (effectiveMaxAttempts s.config) 0
      { s with reconnecting := true, connected := false }

/-- RabbitMQBroker.monitorConnection: the close watcher selects on the
done channel (exiting when it is closed) and on the connection's close
notification; a non-nil close error triggers handleDisconnect. -/
def monitorConnection (s : BrokerState) (closeErr : Option BrokerError)
    (outcome : Nat → ConnectOracle) (subo : String → SubscribeOracle) :
    BrokerState × List RetryEvent :=
  if s.doneClosed then (s, [])
  else
    match closeErr with
    | none => (s, [])
    | some _ => handleDisconnect s outcome subo

/-- One registry operation of the broker port used by callers: a
Subscribe call (with the outcomes of its broker-side steps) or an
Unsubscribe call. -/
inductive RegOp where
  | sub (topic : String) (handler : Nat) (o : SubscribeOracle)
  | unsub (topic : String)
  deriving DecidableEq, Repr

/-- Apply one registry operation to the broker state, keeping the
resulting state (the returned error is observed by the caller but
does not change the state further). -/
def applyRegOp (s : BrokerState) : RegOp → BrokerState
  | .sub t h o => (Subscribe s t h o).2
  | .unsub t => (Unsubscribe s t).2

/-- Run a sequence of Subscribe and Unsubscribe calls. -/
def runRegOps (s : BrokerState) : List RegOp → BrokerState
  | [] => s
  | op :: rest => runRegOps (applyRegOp s op) rest

/-! ### The domain event model and its JSON wire encoding -/

/-- domain.BaseEvent: the common event fields with their JSON tags
id, type, timestamp, aggregate_id. Timestamps are Nat nanoseconds
(time.Time round-trips through its RFC3339 JSON form losslessly at
this resolution). -/
structure BaseEvent where
  id : String
  type : String
  timestamp : Nat
  aggregateId : String
  deriving DecidableEq, Repr

/-- domain.UserCreatedEvent: BaseEvent plus email and name. -/
structure UserCreatedEvent where
  base : BaseEvent
  email : String
  name : String
  deriving DecidableEq, Repr

/-- domain.UserUpdatedEvent: BaseEvent plus name. -/
structure UserUpdatedEvent where
  base : BaseEvent
  name : String
  deriving DecidableEq, Repr

/-- domain.UserDeletedEvent: BaseEvent only. -/
structure UserDeletedEvent where
  base : BaseEvent
  deriving DecidableEq, Repr

/-- domain.UserLoggedInEvent: BaseEvent plus email. -/
structure UserLoggedInEvent where
  base : BaseEvent
  email : String
  deriving DecidableEq, Repr

/-- JSON values as far as the event wire format needs them: strings,
timestamps (as their lossless scalar content) and objects. -/
inductive Json where
  | str (s : String)
  | time (n : Nat)
  | obj (fields : List (String × Json))

/-- Read a string field of a JSON object, as json.Unmarshal does when
filling a string struct field. -/
def Json.getStr : Json → String → Option String
  | .obj fs, k =>
    match mapLookup fs k with
    | some (.str s) => some s
    | _ => none
  | _, _ => none

/-- Read a timestamp field of a JSON object, as json.Unmarshal does
when filling a time.Time struct field. -/
def Json.getTime : Json → String → Option Nat
  | .obj fs, k =>
    match mapLookup fs k with
    | some (.time n) => some n
    | _ => none
  | _, _ => none

/-- The JSON fields json.Marshal emits for the embedded BaseEvent,
with the struct-tag names, promoted into the enclosing object. -/
def encodeBaseFields (e : BaseEvent) : List (String × Json) :=
  [("id", .str e.id), ("type", .str e.type),
   ("timestamp", .time e.timestamp), ("aggregate_id", .str e.aggregateId)]

/-- json.Unmarshal of the embedded BaseEvent fields. -/
def decodeBaseEvent (j : Json) : Option BaseEvent := do
  let i ← j.getStr "id"
  let t ← j.getStr "type"
  let ts ← j.getTime "timestamp"
  let a ← j.getStr "aggregate_id"
  pure ⟨i, t, ts, a⟩

/-- json.Marshal of a UserCreatedEvent. -/
def encodeUserCreatedEvent (e : UserCreatedEvent) : Json :=
  .obj (encodeBaseFields e.base ++
    [("email", .str e.email), ("name", .str e.name)])

/-- json.Unmarshal into a UserCreatedEvent. -/
def decodeUserCreatedEvent (j : Json) : Option UserCreatedEvent := do
  let b ← decodeBaseEvent j
  let em ← j.getStr "email"
  let n ← j.getStr "name"
  pure ⟨b, em, n⟩

/-- json.Marshal of a UserUpdatedEvent. -/
def encodeUserUpdatedEvent (e : UserUpdatedEvent) : Json :=
  .obj (encodeBaseFields e.base ++ [("name", .str e.name)])

/-- json.Unmarshal into a UserUpdatedEvent. -/
def decodeUserUpdatedEvent (j : Json) : Option UserUpdatedEvent := do
  let b ← decodeBaseEvent j
  let n ← j.getStr "name"
  pure ⟨b, n⟩

/-- json.Marshal of a UserDeletedEvent. -/
def encodeUserDeletedEvent (e : UserDeletedEvent) : Json :=
  .obj (encodeBaseFields e.base)

/-- json.Unmarshal into a UserDeletedEvent. -/
def decodeUserDeletedEvent (j : Json) : Option UserDeletedEvent := do
  let b ← decodeBaseEvent j
  pure ⟨b⟩

/-- json.Marshal of a UserLoggedInEvent. -/
def encodeUserLoggedInEvent (e : UserLoggedInEvent) : Json :=
  .obj (encodeBaseFields e.base ++ [("email", .str e.email)])

/-- json.Unmarshal into a UserLoggedInEvent. -/
def decodeUserLoggedInEvent (j : Json) : Option UserLoggedInEvent := do
  let b ← decodeBaseEvent j
  let em ← j.getStr "email"
  pure ⟨b, em⟩

/-! ### Invariants and concrete sample states -/

/-- Every stored CancelFunc token was drawn from the fresh-token
counter, so it is below the counter's current value. This holds for
every broker state the operations construct. -/
def cancelBound (s : BrokerState) : Prop :=
  ∀ p ∈ s.subscriptions, p.2.cancel < s.nextCancel

/-- The registry entries resubscribing a snapshot creates: the
snapshot's topics and handlers in order, with consecutive fresh
CancelFunc tokens starting at base. -/
def freshEntries (cfg : RabbitMQConfig) :
    Nat → List (String × Nat) → List (String × Subscription)
  | _, [] => []
  | base, (t, h) :: rest =>
    (t, ⟨queueNameFor cfg t, h, base⟩) :: freshEntries cfg (base + 1) rest

instance {α : Type} (l : List (String × α)) : Decidable (distinctKeys l) :=
  inferInstanceAs (Decidable (l.map Prod.fst).Nodup)

instance (s : BrokerState) : Decidable (cancelBound s) :=
  inferInstanceAs (Decidable (∀ p ∈ s.subscriptions, p.2.cancel < s.nextCancel))

/-- A sample configuration (zero MaxReconnect and ReconnectDelay, so
the defaults apply). -/
def demoCfg : RabbitMQConfig :=
  ⟨"events", "topic", "svc.", 10, true, 0, 0, "app"⟩

/-- All Connect steps succeed. -/
def goodConnectOracle : ConnectOracle := ⟨true, true, true, true⟩

/-- The dial step of Connect fails. -/
def failConnectOracle : ConnectOracle := ⟨false, true, true, true⟩

/-- All broker-side Subscribe steps succeed. -/
def goodSubOracle : SubscribeOracle := ⟨true, true, true⟩

/-- A freshly constructed broker, not yet connected. -/
def demoDisconnected : BrokerState := NewRabbitMQBroker demoCfg

/-- A broker right after a successful Connect. -/
def demoConnected : BrokerState :=
  { NewRabbitMQBroker demoCfg with connected := true, hasConn := true }

/-- A sample stored subscription. -/
def demoSub : Subscription := ⟨"svc.user.created", 7, 0⟩

/-- A connected broker holding one subscription. -/
def demoWithSub : BrokerState :=
  { demoConnected with
      subscriptions := [("user.created", demoSub)]
      nextCancel := 1
      consumerLoops := [("user.created", 0)] }

/-- The broker state while its reconnection retry loop is running:
handleDisconnect has set the reconnecting flag and cleared the
connected flag, the done channel is still open. -/
def demoReconnecting : BrokerState :=
  { demoWithSub with connected := false, reconnecting := true }

/-- The state after Connect on a fresh broker. -/
def demoC7Connected : BrokerState :=
  (Connect demoDisconnected goodConnectOracle).2

/-- The state after Connect then Close: the done channel is closed. -/
def demoC7Closed : BrokerState :=
  match Close demoC7Connected with
  | .normal _ s => s
  | .panicked => demoC7Connected

/-- The state after Connect, Close, Connect: connected again, but the
done channel is still closed. -/
def demoC7Reconnected : BrokerState :=
  (Connect demoC7Closed goodConnectOracle).2

/-! ### Association-list facts -/

theorem mapLookup_eq_none {α : Type} (l : List (String × α)) (t : String) :
    mapLookup l t = none ↔ t ∉ l.map Prod.fst := by
  induction l with
  | nil => simp [mapLookup]
  | cons p rest ih =>
    obtain ⟨k, v⟩ := p
    by_cases h : k = t
    · subst h
      simp [mapLookup]
    · have hstep : mapLookup ((k, v) :: rest) t = mapLookup rest t := by
        simp [mapLookup, h]
      rw [hstep, ih, List.map_cons, List.mem_cons]
      constructor
      · intro hn hmem
        rcases hmem with h1 | h2
        · exact h h1.symm
        · exact hn h2
      · intro hn hmem
        exact hn (Or.inr hmem)

theorem mapLookup_some_mem {α : Type} {l : List (String × α)} {t : String}
    {v : α} (h : mapLookup l t = some v) : (t, v) ∈ l := by
  induction l with
  | nil => simp [mapLookup] at h
  | cons p rest ih =>
    obtain ⟨k, w⟩ := p
    by_cases hk : k = t
    · subst hk
      simp [mapLookup] at h
      simp [h]
    · simp [mapLookup, hk] at h
      exact List.mem_cons_of_mem _ (ih h)

theorem mapLookup_append_single {α : Type} (l : List (String × α))
    (t : String) (v : α) (k : String) :
    mapLookup (l ++ [(t, v)]) k =
      match mapLookup l k with
      | some w => some w
      | none => if t = k then some v else none := by
  induction l with
  | nil => simp [mapLookup]
  | cons p rest ih =>
    obtain ⟨k0, w⟩ := p
    by_cases h : k0 = k
    · simp [mapLookup, h]
    · simp [mapLookup, h, ih]

theorem mapErase_sublist {α : Type} (l : List (String × α)) (t : String) :
    List.Sublist (mapErase l t) l := by
  induction l with
  | nil => simp [mapErase]
  | cons p rest ih =>
    obtain ⟨k, v⟩ := p
    by_cases h : k = t
    · simpa [mapErase, h] using ih.cons (k, v)
    · simpa [mapErase, h] using ih.cons₂ (k, v)

theorem mapErase_lookup_self {α : Type} (l : List (String × α)) (t : String) :
    mapLookup (mapErase l t) t = none := by
  induction l with
  | nil => simp [mapErase, mapLookup]
  | cons p rest ih =>
    obtain ⟨k, v⟩ := p
    by_cases h : k = t
    · simpa [mapErase, h] using ih
    · simpa [mapErase, mapLookup, h] using ih

theorem distinctKeys_insert {α : Type} {l : List (String × α)} {t : String}
    {v : α} (h : distinctKeys l) (hn : mapLookup l t = none) :
    distinctKeys (mapInsert l t v) := by
  unfold distinctKeys mapInsert
  rw [List.map_append, List.nodup_append]
  refine ⟨h, by simp, ?_⟩
  intro x hx hmem
  simp at hmem
  exact (mapLookup_eq_none l t).mp hn (hmem ▸ hx)

theorem distinctKeys_erase {α : Type} {l : List (String × α)} (t : String)
    (h : distinctKeys l) : distinctKeys (mapErase l t) :=
  List.Nodup.sublist (List.Sublist.map Prod.fst (mapErase_sublist l t)) h

/-! ### Behaviour of the individual broker operations -/

theorem Subscribe_success {s : BrokerState} {t : String} {h : Nat}
    {o : SubscribeOracle} (hc : s.connected = true)
    (hl : mapLookup s.subscriptions t = none) (ho : o.allOk = true) :
    Subscribe s t h o =
      (.ok (),
        { s with
          subscriptions :=
            mapInsert s.subscriptions t
              ⟨queueNameFor s.config t, h, s.nextCancel⟩
          nextCancel := s.nextCancel + 1
          consumerLoops := s.consumerLoops ++ [(t, s.nextCancel)] }) := by
  have ho' := ho
  simp only [SubscribeOracle.allOk, Bool.and_eq_true] at ho'
  obtain ⟨⟨h1, h2⟩, h3⟩ := ho'
  have hcc : (!s.connected) = false := by rw [hc]; rfl
  unfold Subscribe
  rw [hcc]
  simp [hl, h1, h2, h3]

theorem Subscribe_step_fail {s : BrokerState} {t : String} {h : Nat}
    {o : SubscribeOracle} (hc : s.connected = true)
    (hl : mapLookup s.subscriptions t = none) (ho : o.allOk = false) :
    Subscribe s t h o = (.error (subscribeStepError o), s) := by
  obtain ⟨d, b, c⟩ := o
  simp only [SubscribeOracle.allOk] at ho
  cases d <;> cases b <;> cases c <;>
    simp_all [Subscribe, subscribeStepError, hc, hl]

theorem Subscribe_already {s : BrokerState} {t : String} (h : Nat)
    (o : SubscribeOracle) (hc : s.connected = true)
    (hl : (mapLookup s.subscriptions t).isSome = true) :
    Subscribe s t h o = (.error (.alreadySubscribed t), s) := by
  simp [Subscribe, hc, hl]

theorem Subscribe_snd_cases (s : BrokerState) (t : String) (h : Nat)
    (o : SubscribeOracle) :
    (Subscribe s t h o).2 = s ∨
      (mapLookup s.subscriptions t = none ∧ s.connected = true ∧
        (Subscribe s t h o).2 =
          { s with
            subscriptions :=
              mapInsert s.subscriptions t
                ⟨queueNameFor s.config t, h, s.nextCancel⟩
            nextCancel := s.nextCancel + 1
            consumerLoops := s.consumerLoops ++ [(t, s.nextCancel)] }) := by
  cases hc : s.connected with
  | false => left; simp [Subscribe, hc]
  | true =>
    cases hl : mapLookup s.subscriptions t with
    | some v => left; simp [Subscribe, hc, hl]
    | none =>
      by_cases ho : o.allOk = true
      · right
        exact ⟨rfl, rfl, by rw [Subscribe_success hc hl ho, hc]⟩
      · left
        rw [Subscribe_step_fail hc hl (by simpa using ho)]

theorem Unsubscribe_absent {s : BrokerState} {t : String}
    (h : mapLookup s.subscriptions t = none) :
    Unsubscribe s t = (.error (.notSubscribed t), s) := by
  simp [Unsubscribe, h]

theorem Unsubscribe_present {s : BrokerState} {t : String} {sub : Subscription}
    (h : mapLookup s.subscriptions t = some sub) :
    Unsubscribe s t =
      (.ok (),
        { s with
          subscriptions := mapErase s.subscriptions t
          cancelled := s.cancelled ++ [sub.cancel] }) := by
  simp [Unsubscribe, h]

theorem Unsubscribe_snd_connected (s : BrokerState) (t : String) :
    ((Unsubscribe s t).2).connected = s.connected := by
  unfold Unsubscribe
  cases h : mapLookup s.subscriptions t <;> simp

theorem Subscribe_fst_ok {s : BrokerState} {t : String} {h : Nat}
    {o : SubscribeOracle} (hc : s.connected = true)
    (hl : mapLookup s.subscriptions t = none) (ho : o.allOk = true) :
    (Subscribe s t h o).1 = .ok () := by
  rw [Subscribe_success hc hl ho]

/-! ### The claims -/

/-- Claim C9: for every domain event, the JSON round-trip is the
identity on all fields — decoding the bytes produced at publish time
yields an event equal to the original in id, type, timestamp,
aggregate id and every payload field, for each of the four domain
event kinds. -/
theorem claim_C9_json_round_trip :
    ∀ (e1 : UserCreatedEvent) (e2 : UserUpdatedEvent)
      (e3 : UserDeletedEvent) (e4 : UserLoggedInEvent),
      decodeUserCreatedEvent (encodeUserCreatedEvent e1) = some e1 ∧
      decodeUserUpdatedEvent (encodeUserUpdatedEvent e2) = some e2 ∧
      decodeUserDeletedEvent (encodeUserDeletedEvent e3) = some e3 ∧
      decodeUserLoggedInEvent (encodeUserLoggedInEvent e4) = some e4 := by
  intro e1 e2 e3 e4
  refine ⟨?_, ?_, ?_, ?_⟩ <;> rfl

/-- Claim C2: Publish on a disconnected broker returns the
not-connected error without calling json.Marshal and without a
network write; Publish on a connected broker whose serialization
fails returns the serialization error without a network write. -/
theorem claim_C2_publish_fail_fast :
    ∀ (s : BrokerState) (o : PublishOracle),
      (s.connected = false →
        Publish s o = (.error .notConnected, ⟨false, 0⟩)) ∧
      (s.connected = true → o.marshalOk = false →
        Publish s o = (.error .serializationFailed, ⟨true, 0⟩)) := by
  intro s o
  constructor
  · intro h
    simp [Publish, h]
  · intro h hm
    simp [Publish, h, hm]

/-- Witness for C2 at concrete states: a fresh broker is
disconnected, and a connected broker with a failing marshal. -/
theorem claim_C2_witness :
    Publish demoDisconnected ⟨true, true⟩ =
      (.error .notConnected, ⟨false, 0⟩) ∧
    Publish demoConnected ⟨false, true⟩ =
      (.error .serializationFailed, ⟨true, 0⟩) :=
  ⟨(claim_C2_publish_fail_fast demoDisconnected ⟨true, true⟩).1 rfl,
   (claim_C2_publish_fail_fast demoConnected ⟨false, true⟩).2 rfl rfl⟩

/-- Claim C4: for every delivery the consumer loop receives, a topic
no longer in the registry is negatively acknowledged with requeue and
no handler runs; otherwise the registered handler is invoked on the
body, the delivery is acknowledged exactly when the handler succeeds
and negatively acknowledged with requeue exactly when it errors. -/
theorem claim_C4_delivery_handling :
    ∀ (s : BrokerState) (topic : String) (body : List Nat)
      (hres : Nat → List Nat → Bool),
      (mapLookup s.subscriptions topic = none →
        processMessages s topic body hres = ⟨none, .nack false true⟩) ∧
      (∀ sub, mapLookup s.subscriptions topic = some sub →
        (processMessages s topic body hres).handlerCalled =
          some (sub.handler, body) ∧
        ((processMessages s topic body hres).action = .ack false ↔
          hres sub.handler body = true) ∧
        ((processMessages s topic body hres).action = .nack false true ↔
          hres sub.handler body = false)) := by
  intro s topic body hres
  constructor
  · intro h
    simp [processMessages, h]
  · intro sub h
    cases hr : hres sub.handler body <;>
      simp [processMessages, h, hr]

/-- Witness for C4: on a broker holding one subscription, a delivery
for an unregistered topic is requeued with no handler call, and a
delivery for the registered topic reaches handler 7. -/
theorem claim_C4_witness :
    processMessages demoWithSub "user.updated" [1, 2] (fun _ _ => true) =
      ⟨none, .nack false true⟩ ∧
    (processMessages demoWithSub "user.created" [1, 2]
        (fun _ _ => true)).handlerCalled = some (demoSub.handler, [1, 2]) :=
  ⟨(claim_C4_delivery_handling demoWithSub "user.updated" [1, 2]
      (fun _ _ => true)).1 (by decide),
   ((claim_C4_delivery_handling demoWithSub "user.created" [1, 2]
      (fun _ _ => true)).2 demoSub (by decide)).1⟩

/-- Claim C10: a Subscribe whose broker-side step fails returns that
step's error (never the already-subscribed error) with the whole
state — registry and started consumer loops — unchanged, so the same
topic can be subscribed again. -/
theorem claim_C10_subscribe_atomic_failure :
    ∀ (s : BrokerState) (topic : String) (handler : Nat)
      (o : SubscribeOracle),
      s.connected = true →
      mapLookup s.subscriptions topic = none →
      o.allOk = false →
      Subscribe s topic handler o = (.error (subscribeStepError o), s) ∧
      subscribeStepError o ≠ .alreadySubscribed topic ∧
      (∀ h2 o2, SubscribeOracle.allOk o2 = true →
        (Subscribe (Subscribe s topic handler o).2 topic h2 o2).1 =
          .ok ()) := by
  intro s topic handler o hc hl ho
  have hfail := Subscribe_step_fail (h := handler) hc hl ho
  refine ⟨hfail, ?_, ?_⟩
  · obtain ⟨d, b, c⟩ := o
    cases d <;> cases b <;> cases c <;> simp [subscribeStepError]
  · intro h2 o2 ho2
    rw [hfail]
    rw [Subscribe_success hc hl ho2]

/-- Witness for C10: a failing queue declaration on a connected
broker leaves the state unchanged and a retry with working broker
steps succeeds. -/
theorem claim_C10_witness :
    Subscribe demoConnected "user.created" 7 ⟨false, true, true⟩ =
      (.error (subscribeStepError ⟨false, true, true⟩), demoConnected) ∧
    (Subscribe
        (Subscribe demoConnected "user.created" 7 ⟨false, true, true⟩).2
        "user.created" 9 goodSubOracle).1 = .ok () :=
  ⟨(claim_C10_subscribe_atomic_failure demoConnected "user.created" 7
      ⟨false, true, true⟩ rfl (by decide) rfl).1,
   (claim_C10_subscribe_atomic_failure demoConnected "user.created" 7
      ⟨false, true, true⟩ rfl (by decide) rfl).2.2 9 goodSubOracle rfl⟩

theorem PublishBatch_ok_iff (s : BrokerState) (events : List Nat)
    (o : Nat → PublishOracle) :
    (PublishBatch s events o).1 = .ok () ↔
      ∀ e ∈ events, (Publish s (o e)).1 = .ok () := by
  induction events with
  | nil => simp [PublishBatch]
  | cons e rest ih =>
    cases he : (Publish s (o e)).1 with
    | error err => simp [PublishBatch, he]
    | ok u =>
      cases u
      simp [PublishBatch, he, ih]

theorem PublishBatch_ok_sent (s : BrokerState) (events : List Nat)
    (o : Nat → PublishOracle) :
    (PublishBatch s events o).1 = .ok () →
      (PublishBatch s events o).2 = events := by
  induction events with
  | nil => intro _; simp [PublishBatch]
  | cons e rest ih =>
    intro h
    cases he : (Publish s (o e)).1 with
    | error err => simp [PublishBatch, he] at h
    | ok u =>
      cases u
      simp [PublishBatch, he] at h ⊢
      exact ih h

theorem PublishBatch_first_fail (s : BrokerState) (o : Nat → PublishOracle) :
    ∀ (pre : List Nat) (e : Nat) (post : List Nat) (err : BrokerError),
      (∀ x ∈ pre, (Publish s (o x)).1 = .ok ()) →
      (Publish s (o e)).1 = .error err →
      PublishBatch s (pre ++ e :: post) o = (.error err, pre) := by
  intro pre
  induction pre with
  | nil =>
    intro e post err _ he
    simp [PublishBatch, he]
  | cons x pre' ih =>
    intro e post err hpre he
    have hx : (Publish s (o x)).1 = .ok () := hpre x (by simp)
    have hrest := ih e post err (fun y hy => hpre y (by simp [hy])) he
    simp [PublishBatch, hx, hrest]

/-- Claim C8: PublishBatch publishes sequentially in list order,
succeeds exactly when every single Publish succeeds (then everything
was sent), and stops at the first failing Publish, returning its
error with exactly the earlier events already sent. -/
theorem claim_C8_publish_batch :
    ∀ (s : BrokerState) (events : List Nat) (o : Nat → PublishOracle),
      ((PublishBatch s events o).1 = .ok () ↔
        ∀ e ∈ events, (Publish s (o e)).1 = .ok ()) ∧
      ((PublishBatch s events o).1 = .ok () →
        (PublishBatch s events o).2 = events) ∧
      (∀ pre e post err, events = pre ++ e :: post →
        (∀ x ∈ pre, (Publish s (o x)).1 = .ok ()) →
        (Publish s (o e)).1 = .error err →
        PublishBatch s events o = (.error err, pre)) := by
  intro s events o
  refine ⟨PublishBatch_ok_iff s events o, PublishBatch_ok_sent s events o, ?_⟩
  intro pre e post err hev hpre he
  subst hev
  exact PublishBatch_first_fail s o pre e post err hpre he

/-- The per-event Publish outcomes used in the C8 witness: event 2
fails to serialize, every other event publishes fine. -/
def demoBatchOracle : Nat → PublishOracle :=
  fun e => if e = 2 then ⟨false, true⟩ else ⟨true, true⟩

/-- Witness for C8: publishing the batch [1, 2, 3] with event 2
failing serialization returns that error having sent exactly [1]. -/
theorem claim_C8_witness :
    PublishBatch demoConnected [1, 2, 3] demoBatchOracle =
      (.error .serializationFailed, [1]) :=
  (claim_C8_publish_batch demoConnected [1, 2, 3] demoBatchOracle).2.2
    [1] 2 [3] .serializationFailed rfl (by decide) (by decide)

/-- Claim C7, amended: Connect on an already connected broker
returns success at once with no state change; and Close twice in
succession returns no error and panics on neither call from every
state except those in which the done channel was already closed while
the connected flag is set — states reached by reconnecting after a
completed Close, where the first Close panics (see the
counterexample). -/
theorem claim_C7_connect_close_idempotent :
    ∀ (s : BrokerState),
      (∀ o, s.connected = true → Connect s o = (.ok (), s)) ∧
      (¬(s.connected = true ∧ s.doneClosed = true) →
        ∃ s1, Close s = .normal none s1 ∧ Close s1 = .normal none s1) := by
  intro s
  constructor
  · intro o h
    simp [Connect, h]
  · intro h
    cases hc : s.connected with
    | false => exact ⟨s, by simp [Close, hc], by simp [Close, hc]⟩
    | true =>
      have hd : s.doneClosed = false := by
        cases hdc : s.doneClosed
        · rfl
        · exact absurd ⟨hc, hdc⟩ h
      have hclose :
          Close s =
            .normal none
              { s with doneClosed := true, connected := false, connClosed := true } := by
        simp [Close, hc, hd]
      exact ⟨_, hclose, by simp [Close]⟩

/-- Witness for C7: on a freshly connected broker, Connect is a
no-op returning success and a double Close is clean. -/
theorem claim_C7_witness :
    Connect demoConnected goodConnectOracle = (.ok (), demoConnected) ∧
    ∃ s1, Close demoConnected = .normal none s1 ∧
      Close s1 = .normal none s1 :=
  ⟨(claim_C7_connect_close_idempotent demoConnected).1 goodConnectOracle rfl,
   (claim_C7_connect_close_idempotent demoConnected).2 (by decide)⟩

/-- Counterexample to C7 as stated: the state reached by Connect,
Close, Connect is connected, yet Close — the first of two successive
Close calls — panics there, because close(r.done) runs on the done
channel that the earlier Close already closed and Connect never
recreates. -/
theorem claim_C7_counterexample :
    demoC7Reconnected.connected = true ∧
    Close demoC7Connected = .normal none demoC7Closed ∧
    (Connect demoC7Closed goodConnectOracle).1 = .ok () ∧
    Close demoC7Reconnected = .panicked := by
  decide

/-- Claim C6 fails on the code: in the state a reconnection retry
loop runs in (reconnecting set, connected clear), Close returns nil
without closing the done channel — its first statement returns early
because the connected flag is false — so the retry loop observes no
cancellation and still runs its entire budget of sleep/attempt
cycles afterwards. -/
theorem Connect_fail {s : BrokerState} {o : ConnectOracle}
    (hc : s.connected = false) (ho : o.succeeds s.config = false) :
    ∃ e, Connect s o = (.error e, s) := by
  obtain ⟨d, ch, q, ex⟩ := o
  simp only [ConnectOracle.succeeds] at ho
  cases d <;> cases ch <;> cases q <;> cases ex <;>
    simp_all [Connect]

theorem Connect_success {s : BrokerState} {o : ConnectOracle}
    (hc : s.connected = false) (ho : o.succeeds s.config = true) :
    Connect s o =
      (.ok (),
        { s with connected := true, hasConn := true, connClosed := false }) := by
  obtain ⟨d, ch, q, ex⟩ := o
  simp only [ConnectOracle.succeeds, Bool.and_eq_true] at ho
  obtain ⟨⟨⟨hd, hch⟩, hq⟩, hex⟩ := ho
  subst hd; subst hch; subst hq
  have hcond : (!(s.config.exchange == "") && !ex) = false := by
    cases hE : s.config.exchange == "" <;> simp_all
  simp [Connect, hc, hcond]

theorem Subscribe_not_connected {s : BrokerState} (t : String) (h : Nat)
    (o : SubscribeOracle) (hc : s.connected = false) :
    Subscribe s t h o = (.error .notConnected, s) := by
  simp [Subscribe, hc]

theorem mapLookup_isSome_of_mem_keys {α : Type} {l : List (String × α)}
    {t : String} (h : t ∈ l.map Prod.fst) : (mapLookup l t).isSome = true := by
  cases hx : mapLookup l t with
  | none => exact absurd h ((mapLookup_eq_none l t).mp hx)
  | some v => rfl

theorem snapshot_lookup (l : List (String × Subscription)) (t : String) :
    mapLookup (l.map (fun p => (p.1, p.2.handler))) t =
      (mapLookup l t).map Subscription.handler := by
  induction l with
  | nil => simp [mapLookup]
  | cons p rest ih =>
    obtain ⟨k, v⟩ := p
    by_cases h : k = t <;> simp [mapLookup, h, ih]

theorem freshEntries_keys (cfg : RabbitMQConfig) :
    ∀ (snap : List (String × Nat)) (base : Nat),
      (freshEntries cfg base snap).map Prod.fst = snap.map Prod.fst := by
  intro snap
  induction snap with
  | nil => intro base; simp [freshEntries]
  | cons p rest ih =>
    obtain ⟨t, h⟩ := p
    intro base
    simp [freshEntries, ih]

theorem freshEntries_lookup (cfg : RabbitMQConfig) :
    ∀ (snap : List (String × Nat)) (base : Nat) (t : String) (h : Nat),
      mapLookup snap t = some h →
      ∃ c, base ≤ c ∧
        mapLookup (freshEntries cfg base snap) t =
          some ⟨queueNameFor cfg t, h, c⟩ := by
  intro snap
  induction snap with
  | nil => intro base t h hl; simp [mapLookup] at hl
  | cons p rest ih =>
    obtain ⟨t0, h0⟩ := p
    intro base t h hl
    by_cases he : t0 = t
    · subst he
      simp [mapLookup] at hl
      subst hl
      exact ⟨base, Nat.le_refl _, by simp [freshEntries, mapLookup]⟩
    · simp only [mapLookup, if_neg he] at hl
      obtain ⟨c, hcge, hm⟩ := ih (base + 1) t h hl
      exact ⟨c, by omega, by simp [freshEntries, mapLookup, he, hm]⟩

theorem resubLoop_spec (subo : String → SubscribeOracle) :
    ∀ (snap : List (String × Nat)) (st : BrokerState),
      st.connected = true →
      (∀ p ∈ snap, mapLookup st.subscriptions p.1 = none) →
      (snap.map Prod.fst).Nodup →
      (∀ p ∈ snap, (subo p.1).allOk = true) →
      (resubLoop subo snap st).connected = true ∧
      (resubLoop subo snap st).reconnecting = st.reconnecting ∧
      (resubLoop subo snap st).config = st.config ∧
      (resubLoop subo snap st).subscriptions =
        st.subscriptions ++ freshEntries st.config st.nextCancel snap ∧
      (resubLoop subo snap st).nextCancel = st.nextCancel + snap.length := by
  intro snap
  induction snap with
  | nil =>
    intro st hc _ _ _
    exact ⟨hc, rfl, rfl, by simp [resubLoop, freshEntries], rfl⟩
  | cons p rest ih =>
    obtain ⟨t, h⟩ := p
    intro st hc habs hnd hok
    have hl : mapLookup st.subscriptions t = none := habs (t, h) (by simp)
    have ho : (subo t).allOk = true := hok (t, h) (by simp)
    have hndr : (rest.map Prod.fst).Nodup := (List.nodup_cons.mp (by simpa using hnd)).2
    have htn : t ∉ rest.map Prod.fst := (List.nodup_cons.mp (by simpa using hnd)).1
    have habs' : ∀ q ∈ rest,
        mapLookup (mapInsert st.subscriptions t
          ⟨queueNameFor st.config t, h, st.nextCancel⟩) q.1 = none := by
      intro q hq
      have hne : t ≠ q.1 := fun hEq =>
        htn (hEq ▸ List.mem_map_of_mem Prod.fst hq)
      unfold mapInsert
      rw [mapLookup_append_single, habs q (List.mem_cons_of_mem _ hq)]
      simp [hne]
    obtain ⟨hA, hB, hC, hD, hE⟩ :=
      ih { st with
            subscriptions :=
              mapInsert st.subscriptions t
                ⟨queueNameFor st.config t, h, st.nextCancel⟩
            nextCancel := st.nextCancel + 1
            consumerLoops := st.consumerLoops ++ [(t, st.nextCancel)] }
        hc habs' hndr (fun q hq => hok q (List.mem_cons_of_mem _ hq))
    have hstep2 : resubLoop subo ((t, h) :: rest) st =
        resubLoop subo rest
          { st with
            subscriptions :=
              mapInsert st.subscriptions t
                ⟨queueNameFor st.config t, h, st.nextCancel⟩
            nextCancel := st.nextCancel + 1
            consumerLoops := st.consumerLoops ++ [(t, st.nextCancel)] } := by
      show resubLoop subo rest (Subscribe st t h (subo t)).2 = _
      rw [Subscribe_success hc hl ho]
    rw [hstep2]
    refine ⟨hA, ?_, ?_, ?_, ?_⟩
    · rw [hB]
    · rw [hC]
    · rw [hD]
      simp [mapInsert, freshEntries, List.append_assoc]
    · rw [hE]
      simp [List.length_cons]
      omega

theorem resubscribeAll_spec {s : BrokerState} (subo : String → SubscribeOracle)
    (hc : s.connected = true) (hd : distinctKeys s.subscriptions)
    (hok : ∀ t, (mapLookup s.subscriptions t).isSome = true →
      (subo t).allOk = true) :
    (resubscribeAll s subo).connected = true ∧
    (resubscribeAll s subo).reconnecting = s.reconnecting ∧
    (resubscribeAll s subo).config = s.config ∧
    (resubscribeAll s subo).subscriptions =
      freshEntries s.config s.nextCancel
        (s.subscriptions.map (fun p => (p.1, p.2.handler))) ∧
    (resubscribeAll s subo).nextCancel =
      s.nextCancel + s.subscriptions.length := by
  have hkeys :
      ((s.subscriptions.map (fun p => (p.1, p.2.handler))).map Prod.fst) =
        s.subscriptions.map Prod.fst := by
    rw [List.map_map]
    rfl
  have hnd : ((s.subscriptions.map (fun p => (p.1, p.2.handler))).map
      Prod.fst).Nodup := by
    rw [hkeys]
    exact hd
  have hok' : ∀ q ∈ s.subscriptions.map (fun p => (p.1, p.2.handler)),
      (subo q.1).allOk = true := by
    intro q hq
    obtain ⟨p, hp, rfl⟩ := List.mem_map.mp hq
    exact hok p.1 (mapLookup_isSome_of_mem_keys (List.mem_map_of_mem Prod.fst hp))
  obtain ⟨hA, hB, hC, hD, hE⟩ :=
    resubLoop_spec subo (s.subscriptions.map (fun p => (p.1, p.2.handler)))
      { s with subscriptions := [] } hc (fun q _ => rfl) hnd hok'
  exact ⟨hA, hB, hC, by simpa using hD, by simpa using hE⟩

theorem retryLoop_trace (delay : Nat) (outcome : Nat → ConnectOracle)
    (subo : String → SubscribeOracle) :
    ∀ (r att : Nat) (s : BrokerState),
      ∃ bs : List Bool,
        (retryLoop delay outcome subo r att s).2 =
          bs.flatMap (fun b => [.sleep delay, .attempt b]) ∧
        bs.length ≤ r := by
  intro r
  induction r with
  | zero => intro att s; exact ⟨[], by simp [retryLoop], by simp⟩
  | succ r ih =>
    intro att s
    by_cases hd : s.doneClosed = true
    · exact ⟨[], by simp [retryLoop, hd], by simp⟩
    · have hd' : s.doneClosed = false := by
        cases hdc : s.doneClosed
        · rfl
        · exact absurd hdc hd
      cases hres : Connect s (outcome att) with
      | mk fst snd =>
        cases fst with
        | ok u =>
          exact ⟨[true], by simp [retryLoop, hd', hres], by simp⟩
        | error e =>
          obtain ⟨bs, htr, hlen⟩ := ih (att + 1) snd
          refine ⟨false :: bs, ?_, by simp; omega⟩
          simp [retryLoop, hd', hres, htr]

theorem bind_cycle_count (delay : Nat) :
    ∀ bs : List Bool,
      ((bs.flatMap (fun b => [RetryEvent.sleep delay, .attempt b])).filter
        RetryEvent.isAttempt).length = bs.length := by
  intro bs
  induction bs with
  | nil => simp
  | cons b rest ih =>
    have hfilt : List.filter RetryEvent.isAttempt
        [RetryEvent.sleep delay, RetryEvent.attempt b] =
          [RetryEvent.attempt b] := rfl
    rw [List.flatMap_cons, List.filter_append, List.length_append, hfilt, ih]
    simp only [List.length_cons, List.length_nil]
    omega

theorem retryLoop_all_fail (delay : Nat) (outcome : Nat → ConnectOracle)
    (subo : String → SubscribeOracle) :
    ∀ (r att : Nat) (s : BrokerState),
      s.doneClosed = false → s.connected = false →
      (∀ i, i < r → (outcome (att + i)).succeeds s.config = false) →
      (retryLoop delay outcome subo r att s).1 =
        { s with reconnecting := false } := by
  intro r
  induction r with
  | zero => intro att s _ _ _; simp [retryLoop]
  | succ r ih =>
    intro att s hd hc hfail
    have h0 : (outcome att).succeeds s.config = false := by
      simpa using hfail 0 (by omega)
    obtain ⟨e, he⟩ := Connect_fail hc h0
    have hrec := ih (att + 1) s hd hc ?hshift
    case hshift =>
      intro i hi
      have := hfail (i + 1) (by omega)
      rwa [show att + (i + 1) = att + 1 + i from by omega] at this
    simp [retryLoop, hd, he, hrec]

theorem retryLoop_success (delay : Nat) (outcome : Nat → ConnectOracle)
    (subo : String → SubscribeOracle) :
    ∀ (k r att : Nat) (s : BrokerState),
      s.doneClosed = false → s.connected = false →
      k < r →
      (∀ i, i < k → (outcome (att + i)).succeeds s.config = false) →
      (outcome (att + k)).succeeds s.config = true →
      (retryLoop delay outcome subo r att s).1 =
        resubscribeAll
          { s with connected := true, hasConn := true, connClosed := false,
                   reconnecting := false } subo := by
  intro k
  induction k with
  | zero =>
    intro r att s hd hc hr hfail hsucc
    obtain ⟨r', rfl⟩ : ∃ r', r = r' + 1 := ⟨r - 1, by omega⟩
    have hconn := Connect_success hc (by simpa using hsucc)
    simp [retryLoop, hd, hconn]
  | succ k ih =>
    intro r att s hd hc hr hfail hsucc
    obtain ⟨r', rfl⟩ : ∃ r', r = r' + 1 := ⟨r - 1, by omega⟩
    have h0 : (outcome att).succeeds s.config = false := by
      simpa using hfail 0 (by omega)
    obtain ⟨e, he⟩ := Connect_fail hc h0
    have hrec := ih r' (att + 1) s hd hc (by omega) ?hshift ?hsucc
    case hshift =>
      intro i hi
      have := hfail (i + 1) (by omega)
      rwa [show att + (i + 1) = att + 1 + i from by omega] at this
    case hsucc =>
      have := hsucc
      rwa [show att + (k + 1) = att + 1 + k from by omega] at this
    simp [retryLoop, hd, he, hrec]

/-- Claim C3: when a reconnection attempt succeeds within the budget,
the supervisor snapshots the registry as topic/handler pairs, clears
it and re-invokes Subscribe for every entry, so the registry again
holds exactly the topics that were active at disconnect time, each
bound to its original handler with a fresh CancelFunc. -/
theorem claim_C3_resubscribe_recovery :
    ∀ (s : BrokerState) (outcome : Nat → ConnectOracle)
      (subo : String → SubscribeOracle) (k : Nat),
      s.reconnecting = false → s.doneClosed = false →
      distinctKeys s.subscriptions → cancelBound s →
      k < effectiveMaxAttempts s.config →
      (∀ i, i < k → (outcome i).succeeds s.config = false) →
      (outcome k).succeeds s.config = true →
      (∀ t, (mapLookup s.subscriptions t).isSome = true →
        (subo t).allOk = true) →
      (handleDisconnect s outcome subo).1.connected = true ∧
      (handleDisconnect s outcome subo).1.reconnecting = false ∧
      (handleDisconnect s outcome subo).1.subscriptions.map Prod.fst =
        s.subscriptions.map Prod.fst ∧
      (∀ t sub, mapLookup s.subscriptions t = some sub →
        ∃ sub1,
          mapLookup (handleDisconnect s outcome subo).1.subscriptions t =
            some sub1 ∧
          sub1.handler = sub.handler ∧ sub1.cancel ≠ sub.cancel) := by
  intro s outcome subo k hrec hdone hdk hcb hk hfail hsucc hsubo
  have hunfold : handleDisconnect s outcome subo =
      retryLoop (effectiveDelay s.config) outcome subo
        (effectiveMaxAttempts s.config) 0
        { s with reconnecting := true, connected := false } := by
    simp [handleDisconnect, hrec]
  have hloop := retryLoop_success (effectiveDelay s.config) outcome subo k
    (effectiveMaxAttempts s.config) 0
    { s with reconnecting := true, connected := false }
    hdone rfl hk (fun i hi => by simpa using hfail i hi) (by simpa using hsucc)
  obtain ⟨hA, hB, hC, hD, hE⟩ :=
    resubscribeAll_spec (s :=
      { s with connected := true, hasConn := true, connClosed := false,
               reconnecting := false }) subo rfl hdk hsubo
  rw [hunfold, hloop]
  refine ⟨hA, hB, ?_, ?_⟩
  · rw [hD, freshEntries_keys, List.map_map]
    rfl
  · intro t sub hlk
    have hsnap :
        mapLookup (s.subscriptions.map (fun p => (p.1, p.2.handler))) t =
          some sub.handler := by
      rw [snapshot_lookup, hlk]
      rfl
    obtain ⟨c, hcge, hm⟩ := freshEntries_lookup s.config
      (s.subscriptions.map (fun p => (p.1, p.2.handler))) s.nextCancel t
      sub.handler hsnap
    have hclt : sub.cancel < s.nextCancel := hcb (t, sub) (mapLookup_some_mem hlk)
    refine ⟨⟨queueNameFor s.config t, sub.handler, c⟩, ?_, rfl, by
      simp only []
      omega⟩
    rw [hD]
    exact hm

/-- Witness for C3: a broker with one active subscription whose first
reconnection attempt succeeds ends up connected with the same topic
re-registered. -/
theorem claim_C3_witness :
    (handleDisconnect demoWithSub (fun _ => goodConnectOracle)
        (fun _ => goodSubOracle)).1.connected = true ∧
    (handleDisconnect demoWithSub (fun _ => goodConnectOracle)
        (fun _ => goodSubOracle)).1.subscriptions.map Prod.fst =
      demoWithSub.subscriptions.map Prod.fst :=
  ⟨(claim_C3_resubscribe_recovery demoWithSub (fun _ => goodConnectOracle)
      (fun _ => goodSubOracle) 0 rfl rfl (by decide) (by decide) (by decide)
      (fun i hi => absurd hi (Nat.not_lt_zero i)) (by decide)
      (fun t _ => rfl)).1,
   (claim_C3_resubscribe_recovery demoWithSub (fun _ => goodConnectOracle)
      (fun _ => goodSubOracle) 0 rfl rfl (by decide) (by decide) (by decide)
      (fun i hi => absurd hi (Nat.not_lt_zero i)) (by decide)
      (fun t _ => rfl)).2.2.1⟩

/-- Claim C5: after a disconnect the supervisor makes at most the
configured maximum number of Connect attempts (10 when the configured
value is zero), each preceded by one fixed-delay sleep (5s when the
configured delay is zero); when every attempt in the budget fails the
broker stays disconnected, Health keeps returning an error, no
operation flips the connected flag back, and only a successful
external Connect restores a healthy state. -/
theorem claim_C5_retry_budget :
    ∀ (s : BrokerState) (outcome : Nat → ConnectOracle)
      (subo : String → SubscribeOracle),
      s.reconnecting = false →
      (((handleDisconnect s outcome subo).2.filter
          RetryEvent.isAttempt).length ≤ effectiveMaxAttempts s.config) ∧
      (∃ bs : List Bool,
        (handleDisconnect s outcome subo).2 =
          bs.flatMap (fun b => [.sleep (effectiveDelay s.config), .attempt b])) ∧
      (s.doneClosed = false →
        (∀ i, i < effectiveMaxAttempts s.config →
          (outcome i).succeeds s.config = false) →
        (handleDisconnect s outcome subo).1.connected = false ∧
        (handleDisconnect s outcome subo).1.reconnecting = false ∧
        Health (handleDisconnect s outcome subo).1 = .error .notHealthy ∧
        (∀ t h o,
          ((Subscribe (handleDisconnect s outcome subo).1 t h o).2).connected =
            false) ∧
        (∀ t,
          ((Unsubscribe (handleDisconnect s outcome subo).1 t).2).connected =
            false) ∧
        (∀ o2, o2.succeeds s.config = true →
          (Connect (handleDisconnect s outcome subo).1 o2).1 = .ok () ∧
          ((Connect (handleDisconnect s outcome subo).1 o2).2).connected =
            true ∧
          Health ((Connect (handleDisconnect s outcome subo).1 o2).2) =
            .ok ())) := by
  intro s outcome subo hrec
  have hunfold : handleDisconnect s outcome subo =
      retryLoop (effectiveDelay s.config) outcome subo
        (effectiveMaxAttempts s.config) 0
        { s with reconnecting := true, connected := false } := by
    simp [handleDisconnect, hrec]
  obtain ⟨bs, htr, hlen⟩ := retryLoop_trace (effectiveDelay s.config) outcome
    subo (effectiveMaxAttempts s.config) 0
    { s with reconnecting := true, connected := false }
  refine ⟨?_, ?_, ?_⟩
  · rw [hunfold, htr, bind_cycle_count]
    exact hlen
  · exact ⟨bs, by rw [hunfold, htr]⟩
  · intro hdone hallfail
    have hfinal := retryLoop_all_fail (effectiveDelay s.config) outcome subo
      (effectiveMaxAttempts s.config) 0
      { s with reconnecting := true, connected := false }
      hdone rfl (fun i hi => by simpa using hallfail i hi)
    rw [hunfold, hfinal]
    refine ⟨rfl, rfl, by simp [Health], ?_, ?_, ?_⟩
    · intro t h o
      rw [Subscribe_not_connected t h o rfl]
    · intro t
      rw [Unsubscribe_snd_connected]
    · intro o2 ho2
      have hcs := Connect_success (s :=
        { s with reconnecting := false, connected := false }) (o := o2) rfl ho2
      rw [hcs]
      exact ⟨rfl, rfl, by simp [Health]⟩

/-- Witness for C5: a broker whose every reconnect attempt fails to
dial stays unhealthy after the supervisor gives up, within a trace of
at most ten attempts. -/
theorem claim_C5_witness :
    (((handleDisconnect demoWithSub (fun _ => failConnectOracle)
        (fun _ => goodSubOracle)).2.filter RetryEvent.isAttempt).length ≤
      effectiveMaxAttempts demoWithSub.config) ∧
    Health (handleDisconnect demoWithSub (fun _ => failConnectOracle)
        (fun _ => goodSubOracle)).1 = .error .notHealthy :=
  ⟨(claim_C5_retry_budget demoWithSub (fun _ => failConnectOracle)
      (fun _ => goodSubOracle) rfl).1,
   ((claim_C5_retry_budget demoWithSub (fun _ => failConnectOracle)
      (fun _ => goodSubOracle) rfl).2.2 rfl (by decide)).2.2.1⟩

theorem applyRegOp_inv {s : BrokerState} (hc : s.connected = true)
    (hd : distinctKeys s.subscriptions) (op : RegOp) :
    (applyRegOp s op).connected = true ∧
      distinctKeys (applyRegOp s op).subscriptions := by
  cases op with
  | sub t h o =>
    rcases Subscribe_snd_cases s t h o with hcase | ⟨hl, _, hcase⟩
    · simp only [applyRegOp, hcase]
      exact ⟨hc, hd⟩
    · simp only [applyRegOp, hcase]
      exact ⟨hc, distinctKeys_insert hd hl⟩
  | unsub t =>
    cases hl : mapLookup s.subscriptions t with
    | none =>
      simp only [applyRegOp, Unsubscribe_absent hl]
      exact ⟨hc, hd⟩
    | some sub =>
      simp only [applyRegOp, Unsubscribe_present hl]
      exact ⟨hc, distinctKeys_erase t hd⟩

theorem runRegOps_inv {s : BrokerState} (hc : s.connected = true)
    (hd : distinctKeys s.subscriptions) (ops : List RegOp) :
    (runRegOps s ops).connected = true ∧
      distinctKeys (runRegOps s ops).subscriptions := by
  induction ops generalizing s with
  | nil => exact ⟨hc, hd⟩
  | cons op rest ih =>
    obtain ⟨hc1, hd1⟩ := applyRegOp_inv hc hd op
    simpa [runRegOps] using ih hc1 hd1

/-- Claim C1: along every sequence of Subscribe and Unsubscribe calls
on a connected broker, each topic has at most one registry entry;
Subscribe on a present topic returns the already-subscribed error
leaving the state unchanged; Unsubscribe on an absent topic returns
the not-subscribed error leaving the state unchanged; and after a
successful Unsubscribe a Subscribe on the same topic succeeds. -/
theorem claim_C1_registry_invariant :
    ∀ (s0 : BrokerState) (ops : List RegOp),
      s0.connected = true → distinctKeys s0.subscriptions →
      (∀ t, ((runRegOps s0 ops).subscriptions.map Prod.fst).count t ≤ 1) ∧
      (∀ t h o,
        (mapLookup (runRegOps s0 ops).subscriptions t).isSome = true →
        Subscribe (runRegOps s0 ops) t h o =
          (.error (.alreadySubscribed t), runRegOps s0 ops)) ∧
      (∀ t, mapLookup (runRegOps s0 ops).subscriptions t = none →
        Unsubscribe (runRegOps s0 ops) t =
          (.error (.notSubscribed t), runRegOps s0 ops)) ∧
      (∀ t h o s1, Unsubscribe (runRegOps s0 ops) t = (.ok (), s1) →
        SubscribeOracle.allOk o = true →
        (Subscribe s1 t h o).1 = .ok ()) := by
  intro s0 ops hc hd
  obtain ⟨hc1, hd1⟩ := runRegOps_inv hc hd ops
  refine ⟨?_, ?_, ?_, ?_⟩
  · exact fun t => List.nodup_iff_count_le_one.mp hd1 t
  · exact fun t h o hs => Subscribe_already h o hc1 hs
  · exact fun t hl => Unsubscribe_absent hl
  · intro t h o s1 hu ho
    cases hl : mapLookup (runRegOps s0 ops).subscriptions t with
    | none =>
      rw [Unsubscribe_absent hl] at hu
      simp at hu
    | some sub =>
      rw [Unsubscribe_present hl] at hu
      simp only [Prod.mk.injEq] at hu
      obtain ⟨-, hs1⟩ := hu
      subst hs1
      exact Subscribe_fst_ok hc1 (mapErase_lookup_self _ t) ho

/-- The single Subscribe call of the C1 witness run. -/
def demoOps : List RegOp := [.sub "user.created" 7 goodSubOracle]

/-- Witness for C1: after subscribing to a topic on a connected
broker, a second Subscribe on it fails with the already-subscribed
error and changes nothing. -/
theorem claim_C1_witness :
    Subscribe (runRegOps demoConnected demoOps) "user.created" 9
        goodSubOracle =
      (.error (.alreadySubscribed "user.created"),
        runRegOps demoConnected demoOps) :=
  (claim_C1_registry_invariant demoConnected demoOps rfl (by decide)).2.1
    "user.created" 9 goodSubOracle (by decide)

theorem claim_C6_close_skips_retry_cancellation :
    Close demoReconnecting = .normal none demoReconnecting ∧
    demoReconnecting.doneClosed = false ∧
    ((retryLoop (effectiveDelay demoCfg) (fun _ => failConnectOracle)
        (fun _ => goodSubOracle) (effectiveMaxAttempts demoCfg) 0
        demoReconnecting).2).length = 2 * effectiveMaxAttempts demoCfg := by
  decide

end GoHexaClean
